import Mathlib

/-!
Shallow embedding of the store-address resolver in `src/server/resolve.rs`
(TiKV). The resolver maps a store id to a socket address, caching results
for `STORE_ADDRESS_REFRESH_SECONDS` and refreshing stale or missing entries
through the PD (coordinator) client.

Time is modelled as `Nat` nanoseconds (mirroring `std::time::Instant` /
`Duration`); `Duration::as_secs` is integer division by `nanosPerSec`.
The PD client and `util::to_socket_addr` are external collaborators and are
modelled as function fields of an `Env` record. The runner state carries two
ghost instrumentation counters that the Rust code updates through globals:
`tombstone_counter` models `RESOLVE_STORE_COUNTER.with_label_values(&["tombstone"])`
and `pd_calls` counts invocations of `PdClient::get_store`.
-/

namespace Resolve

/-- Lifecycle state of a store (`metapb::StoreState`). -/
inductive StoreState where
  | up
  | offline
  | tombstone
deriving DecidableEq

/-- The part of `metapb::Store` read by the resolver: lifecycle state and address. -/
structure Store where
  state : StoreState
  address : String
deriving DecidableEq

/-- A socket address (`std::net::SocketAddr`), abstracted to an ip string plus a port. -/
structure SockAddr where
  ip : String
  port : Nat
deriving DecidableEq

/-- A cached endpoint plus the instant of its last update in ns (`StoreAddr`). -/
structure StoreAddr where
  sock : SockAddr
  last_update : Nat
deriving DecidableEq

/-- The freshness window, `const STORE_ADDRESS_REFRESH_SECONDS: u64 = 60`. -/
def STORE_ADDRESS_REFRESH_SECONDS : Nat := 60

/-- Nanoseconds per second; `Duration::as_secs` divides by this. -/
def nanosPerSec : Nat := 1000000000

/-- Truncation of a nanosecond duration to whole seconds (`Duration::as_secs`). -/
def durationAsSecs (d : Nat) : Nat := d / nanosPerSec

/-- External collaborators: the PD client's `get_store` and
`util::to_socket_addr`, both fallible. -/
structure Env where
  get_store : Nat → Except String Store
  to_socket_addr : String → Except String SockAddr

/-- The mutable state of `Runner`: the `store_addrs` cache (an association
list read through `cacheGet`, mirroring `HashMap<u64, StoreAddr>`), plus the
two ghost counters described in the file header. -/
structure RunnerState where
  store_addrs : List (Nat × StoreAddr)
  tombstone_counter : Nat
  pd_calls : Nat
deriving DecidableEq

/-- Cache lookup (`HashMap::get`): first entry with the given key. -/
def cacheGet (c : List (Nat × StoreAddr)) (k : Nat) : Option StoreAddr :=
  (c.find? (fun p => p.1 == k)).map (fun p => p.2)

/-- Cache update (`HashMap::insert`): overwrite the entry for `k`. -/
def cacheInsert (c : List (Nat × StoreAddr)) (k : Nat) (v : StoreAddr) :
    List (Nat × StoreAddr) :=
  (k, v) :: c.filter (fun p => p.1 != k)

/-- The embedding of `Runner::get_address`: fetch store metadata from PD, reject tombstoned
stores (incrementing the tombstone counter) and empty addresses. The
`pd_calls` ghost counter records that `get_store` was invoked. -/
def get_address (env : Env) (st : RunnerState) (store_id : Nat) :
    Except String String × RunnerState :=
  let st1 : RunnerState := { st with pd_calls := st.pd_calls + 1 }
  match env.get_store store_id with
  | .error e => (.error e, st1)
  | .ok s =>
    if s.state = StoreState.tombstone then
      (.error ("store " ++ toString store_id ++ " has been removed"),
        { st1 with tombstone_counter := st1.tombstone_counter + 1 })
    else if s.address = "" then
      (.error ("invalid empty address for store " ++ toString store_id), st1)
    else
      (.ok s.address, st1)

/-- The refresh path of `Runner::resolve`: fetch and validate the address,
parse it, and on success overwrite the cache entry with the parse result and
the current instant `now2`. -/
def refreshStore (env : Env) (now2 : Nat) (st : RunnerState) (store_id : Nat) :
    Except String SockAddr × RunnerState :=
  match get_address env st store_id with
  | (.error e, st1) => (.error e, st1)
  | (.ok addr, st1) =>
    match env.to_socket_addr addr with
    | .error e => (.error e, st1)
    | .ok sock =>
      (.ok sock,
        { st1 with
          store_addrs :=
            cacheInsert st1.store_addrs store_id
              { sock := sock, last_update := now2 } })

/-- The embedding of `Runner::resolve`: answer from the cache when the entry is younger than
`STORE_ADDRESS_REFRESH_SECONDS`, otherwise refresh. `now` is the instant of
the freshness check, `now2` the instant stored with a refreshed entry. -/
def resolve (env : Env) (now now2 : Nat) (st : RunnerState) (store_id : Nat) :
    Except String SockAddr × RunnerState :=
  match cacheGet st.store_addrs store_id with
  | some s =>
    if durationAsSecs (now - s.last_update) < STORE_ADDRESS_REFRESH_SECONDS then
      (.ok s.sock, st)
    else
      refreshStore env now2 st store_id
  | none => refreshStore env now2 st store_id

/-- A resolution task: store id plus one-shot callback (`Task` in the source). -/
structure Task (β : Type) where
  store_id : Nat
  cb : Except String SockAddr → β

/-- The embedding of `Runnable::run` for `Runner`: resolve the task's store id and invoke the
callback with the outcome. The returned list records the callback
invocations performed by this call, in order. -/
def run {β : Type} (env : Env) (now now2 : Nat) (st : RunnerState)
    (task : Task β) : RunnerState × List β :=
  let r := resolve env now now2 st task.store_id
  (r.2, [task.cb r.1])

/-- Modelled from the spec: the generic worker (`util::worker::Worker`) is not
part of the source fragment; the spec describes a single-consumer task queue
whose non-blocking enqueue fails when the worker is stopped. -/
structure Worker (β : Type) where
  running : Bool
  pending : List (Task β)

/-- Modelled from the spec: `Worker::schedule` enqueues a task, failing when
the worker is not running. -/
def schedule {β : Type} (w : Worker β) (t : Task β) : Except String (Worker β) :=
  if w.running then .ok { w with pending := w.pending ++ [t] } else .error "worker stopped"

/-- The embedding of `StoreAddrResolver::resolve` for `PdStoreAddrResolver`: build a task and
schedule it. The third component records the callback invocations performed
synchronously by this call (always none: the callback travels with the task). -/
def PdStoreAddrResolver.resolve {β : Type} (w : Worker β) (store_id : Nat)
    (cb : Except String SockAddr → β) : Except String Unit × Worker β × List β :=
  match schedule w { store_id := store_id, cb := cb } with
  | .error e => (.error e, w, [])
  | .ok w1 => (.ok (), w1, [])

/-- One `resolve` call of an execution trace: its environment (PD answers may
change between calls), the two instants, and the store id. -/
structure Call where
  env : Env
  now : Nat
  now2 : Nat
  store_id : Nat

/-- Fold a trace of `resolve` calls over the runner state. -/
def runCalls : List Call → RunnerState → RunnerState
  | [], st => st
  | c :: rest, st => runCalls rest (resolve c.env c.now c.now2 st c.store_id).2

/-- The runner's initial state: empty cache, zeroed counters. -/
def initState : RunnerState :=
  { store_addrs := [], tombstone_counter := 0, pd_calls := 0 }

/-- A cache entry that a fully successful lookup in `env` would produce for
store `k`: metadata fetched, not tombstoned, non-empty address, parsed to the
entry's socket address. -/
def GoodEntry (env : Env) (k : Nat) (a : StoreAddr) : Prop :=
  ∃ s : Store, env.get_store k = .ok s ∧ s.state ≠ StoreState.tombstone ∧
    s.address ≠ "" ∧ env.to_socket_addr s.address = .ok a.sock

/-! ### A concrete environment for instantiating the theorems -/

/-- A concrete socket address. -/
def demoSock : SockAddr := { ip := "a", port := 1 }

/-- Metadata of a healthy store. -/
def demoStore : Store := { state := StoreState.up, address := "a:1" }

/-- A concrete environment: store 1 is up, store 2 tombstoned, store 3 has an
empty address, store 4 an unparseable address, and every other id fails with a
transport error. -/
def demoEnv : Env :=
  { get_store := fun k =>
      if k = 1 then .ok demoStore
      else if k = 2 then .ok { state := StoreState.tombstone, address := "a:1" }
      else if k = 3 then .ok { state := StoreState.up, address := "" }
      else if k = 4 then .ok { state := StoreState.up, address := "bad" }
      else .error "transport error",
    to_socket_addr := fun a =>
      if a = "a:1" then .ok demoSock else .error "parse error" }

/-- A cache entry for `demoSock`, installed at instant 0. -/
def demoEntry : StoreAddr := { sock := demoSock, last_update := 0 }

/-- A runner state whose cache holds `demoEntry` for store 1. -/
def demoStFresh : RunnerState :=
  { store_addrs := [(1, demoEntry)], tombstone_counter := 0, pd_calls := 0 }

/-- One concrete `resolve` call against `demoEnv`. -/
def demoCall : Call := { env := demoEnv, now := 0, now2 := 7, store_id := 1 }

/-! ### Cache lemmas -/

theorem cacheGet_insert_self (c : List (Nat × StoreAddr)) (k : Nat) (v : StoreAddr) :
    cacheGet (cacheInsert c k v) k = some v := by
  unfold cacheGet cacheInsert
  rw [List.find?_cons_of_pos]
  · rfl
  · simp

theorem find?_filter_ne (c : List (Nat × StoreAddr)) (t k : Nat) (h : t ≠ k) :
    (c.filter (fun p => p.1 != k)).find? (fun p => p.1 == t) =
      c.find? (fun p => p.1 == t) := by
  induction c with
  | nil => rfl
  | cons a l ih =>
    by_cases hat : a.1 = t
    · simp [List.filter_cons, List.find?_cons, hat, h]
    · by_cases hak : a.1 = k
      · have hk : (a.1 != k) = false := by simp [hak]
        simp only [List.filter_cons, hk, Bool.false_eq_true, if_false]
        rw [ih, List.find?_cons_of_neg]
        simp [hat]
      · have hk : (a.1 != k) = true := by simp [hak]
        simp only [List.filter_cons, hk, if_true]
        rw [List.find?_cons_of_neg, List.find?_cons_of_neg, ih] <;> simp [hat]

theorem cacheGet_insert_ne (c : List (Nat × StoreAddr)) (t k : Nat) (v : StoreAddr)
    (h : t ≠ k) : cacheGet (cacheInsert c k v) t = cacheGet c t := by
  unfold cacheGet cacheInsert
  rw [List.find?_cons_of_neg]
  · rw [find?_filter_ne c t k h]
  · simp only [beq_iff_eq]
    exact Ne.symm h

/-! ### `get_address` lemmas -/

theorem get_address_store_addrs (env : Env) (st : RunnerState) (S : Nat) :
    (get_address env st S).2.store_addrs = st.store_addrs := by
  unfold get_address
  cases env.get_store S with
  | error e => rfl
  | ok s =>
    by_cases h1 : s.state = StoreState.tombstone
    · simp [h1]
    · by_cases h2 : s.address = "" <;> simp [h1, h2]

theorem get_address_pd_calls (env : Env) (st : RunnerState) (S : Nat) :
    (get_address env st S).2.pd_calls = st.pd_calls + 1 := by
  unfold get_address
  cases env.get_store S with
  | error e => rfl
  | ok s =>
    by_cases h1 : s.state = StoreState.tombstone
    · simp [h1]
    · by_cases h2 : s.address = "" <;> simp [h1, h2]

theorem get_address_ok (env : Env) (st : RunnerState) (S : Nat) (s : Store)
    (hs : env.get_store S = .ok s) (h1 : s.state ≠ StoreState.tombstone)
    (h2 : s.address ≠ "") :
    get_address env st S = (.ok s.address, { st with pd_calls := st.pd_calls + 1 }) := by
  unfold get_address
  rw [hs]
  simp [h1, h2]

theorem get_address_error (env : Env) (st : RunnerState) (S : Nat)
    (h : ∀ a st1, get_address env st S ≠ (.ok a, st1)) :
    ∃ e st1, get_address env st S = (.error e, st1) := by
  rcases hg : get_address env st S with ⟨r, st1⟩
  cases r with
  | error e => exact ⟨e, st1, rfl⟩
  | ok a => exact absurd hg (h a st1)

/-! ### `refreshStore` lemmas -/

theorem refreshStore_pd_calls (env : Env) (now2 : Nat) (st : RunnerState) (S : Nat) :
    (refreshStore env now2 st S).2.pd_calls = st.pd_calls + 1 := by
  unfold refreshStore
  rcases hg : get_address env st S with ⟨r, st1⟩
  have hpd : st1.pd_calls = st.pd_calls + 1 := by
    have hh := get_address_pd_calls env st S
    rw [hg] at hh
    exact hh
  cases r with
  | error e => exact hpd
  | ok addr =>
    dsimp only
    cases env.to_socket_addr addr with
    | error e => exact hpd
    | ok sock => exact hpd

theorem refreshStore_ok (env : Env) (now2 : Nat) (st : RunnerState) (S : Nat)
    (s : Store) (sock : SockAddr)
    (hs : env.get_store S = .ok s) (h1 : s.state ≠ StoreState.tombstone)
    (h2 : s.address ≠ "") (h3 : env.to_socket_addr s.address = .ok sock) :
    refreshStore env now2 st S =
      (.ok sock,
        { st with
          pd_calls := st.pd_calls + 1,
          store_addrs :=
            cacheInsert st.store_addrs S { sock := sock, last_update := now2 } }) := by
  unfold refreshStore
  rw [get_address_ok env st S s hs h1 h2]
  simp [h3]

theorem refreshStore_error_store_addrs (env : Env) (now2 : Nat) (st : RunnerState)
    (S : Nat) (e : String)
    (h : (refreshStore env now2 st S).1 = .error e) :
    (refreshStore env now2 st S).2.store_addrs = st.store_addrs := by
  unfold refreshStore at *
  rcases hg : get_address env st S with ⟨r, st1⟩
  have hsa : st1.store_addrs = st.store_addrs := by
    have hh := get_address_store_addrs env st S
    rw [hg] at hh
    exact hh
  rw [hg] at h
  cases r with
  | error e1 => exact hsa
  | ok addr =>
    dsimp only at h ⊢
    cases hp : env.to_socket_addr addr with
    | error e1 => simp only [hp]; exact hsa
    | ok sock => rw [hp] at h; simp at h

theorem refreshStore_transport_error (env : Env) (now2 : Nat) (st : RunnerState)
    (S : Nat) (e : String) (hs : env.get_store S = .error e) :
    refreshStore env now2 st S = (.error e, { st with pd_calls := st.pd_calls + 1 }) := by
  unfold refreshStore get_address
  rw [hs]

theorem refreshStore_tombstone (env : Env) (now2 : Nat) (st : RunnerState)
    (S : Nat) (s : Store) (hs : env.get_store S = .ok s)
    (h1 : s.state = StoreState.tombstone) :
    refreshStore env now2 st S =
      (.error ("store " ++ toString S ++ " has been removed"),
        { st with pd_calls := st.pd_calls + 1,
                  tombstone_counter := st.tombstone_counter + 1 }) := by
  unfold refreshStore get_address
  rw [hs]
  simp [h1]

theorem refreshStore_empty_address (env : Env) (now2 : Nat) (st : RunnerState)
    (S : Nat) (s : Store) (hs : env.get_store S = .ok s)
    (h1 : s.state ≠ StoreState.tombstone) (h2 : s.address = "") :
    refreshStore env now2 st S =
      (.error ("invalid empty address for store " ++ toString S),
        { st with pd_calls := st.pd_calls + 1 }) := by
  unfold refreshStore get_address
  rw [hs]
  simp [h1, h2]

theorem refreshStore_parse_error (env : Env) (now2 : Nat) (st : RunnerState)
    (S : Nat) (s : Store) (e : String) (hs : env.get_store S = .ok s)
    (h1 : s.state ≠ StoreState.tombstone) (h2 : s.address ≠ "")
    (h3 : env.to_socket_addr s.address = .error e) :
    refreshStore env now2 st S = (.error e, { st with pd_calls := st.pd_calls + 1 }) := by
  unfold refreshStore
  rw [get_address_ok env st S s hs h1 h2]
  simp [h3]

/-! ### `resolve` lemmas -/

theorem resolve_fresh (env : Env) (now now2 : Nat) (st : RunnerState) (S : Nat)
    (s : StoreAddr) (hc : cacheGet st.store_addrs S = some s)
    (hf : durationAsSecs (now - s.last_update) < STORE_ADDRESS_REFRESH_SECONDS) :
    resolve env now now2 st S = (.ok s.sock, st) := by
  unfold resolve
  rw [hc]
  simp [hf]

theorem resolve_stale (env : Env) (now now2 : Nat) (st : RunnerState) (S : Nat)
    (hst : ∀ s, cacheGet st.store_addrs S = some s →
      STORE_ADDRESS_REFRESH_SECONDS ≤ durationAsSecs (now - s.last_update)) :
    resolve env now now2 st S = refreshStore env now2 st S := by
  unfold resolve
  cases hc : cacheGet st.store_addrs S with
  | none => rfl
  | some s =>
    have := hst s hc
    simp [Nat.not_lt.mpr this]

theorem durationAsSecs_lt_iff (d : Nat) :
    durationAsSecs d < STORE_ADDRESS_REFRESH_SECONDS ↔
      d < STORE_ADDRESS_REFRESH_SECONDS * nanosPerSec := by
  unfold durationAsSecs STORE_ADDRESS_REFRESH_SECONDS nanosPerSec
  rw [Nat.div_lt_iff_lt_mul (by norm_num)]

theorem resolve_pd_calls_le (env : Env) (now now2 : Nat) (st : RunnerState) (S : Nat) :
    (resolve env now now2 st S).2.pd_calls ≤ st.pd_calls + 1 := by
  unfold resolve
  cases hc : cacheGet st.store_addrs S with
  | none => rw [refreshStore_pd_calls]
  | some s =>
    by_cases hf : durationAsSecs (now - s.last_update) < STORE_ADDRESS_REFRESH_SECONDS
    · simp [hf]
    · simp only [hf, if_false]
      rw [refreshStore_pd_calls]

theorem refreshStore_ok_entry (env : Env) (now2 : Nat) (st : RunnerState) (S : Nat)
    (sock : SockAddr) (h : (refreshStore env now2 st S).1 = .ok sock) :
    ∃ s, cacheGet (refreshStore env now2 st S).2.store_addrs S = some s ∧
      s.sock = sock := by
  unfold refreshStore at h ⊢
  rcases hg : get_address env st S with ⟨r, st1⟩
  rw [hg] at h
  cases r with
  | error e => simp at h
  | ok addr =>
    dsimp only at h ⊢
    cases hp : env.to_socket_addr addr with
    | error e => rw [hp] at h; simp at h
    | ok sock1 =>
      rw [hp] at h
      simp only [Except.ok.injEq] at h
      refine ⟨{ sock := sock1, last_update := now2 }, ?_, h⟩
      simp [hp, cacheGet_insert_self]

theorem resolve_ok_entry (env : Env) (now now2 : Nat) (st : RunnerState) (S : Nat)
    (sock : SockAddr) (h : (resolve env now now2 st S).1 = .ok sock) :
    ∃ s, cacheGet (resolve env now now2 st S).2.store_addrs S = some s ∧
      s.sock = sock := by
  unfold resolve at h ⊢
  cases hc : cacheGet st.store_addrs S with
  | some s =>
    rw [hc] at h
    dsimp only at h ⊢
    by_cases hf : durationAsSecs (now - s.last_update) < STORE_ADDRESS_REFRESH_SECONDS
    · simp only [hf, if_true] at h ⊢
      refine ⟨s, hc, ?_⟩
      simpa using h
    · simp only [hf, if_false] at h ⊢
      exact refreshStore_ok_entry env now2 st S sock h
  | none =>
    rw [hc] at h
    dsimp only at h ⊢
    exact refreshStore_ok_entry env now2 st S sock h

theorem refreshStore_frame (env : Env) (now2 : Nat) (st : RunnerState) (S T : Nat)
    (h : T ≠ S) :
    cacheGet (refreshStore env now2 st S).2.store_addrs T =
      cacheGet st.store_addrs T := by
  cases hg : env.get_store S with
  | error e => rw [refreshStore_transport_error env now2 st S e hg]
  | ok s =>
    by_cases h1 : s.state = StoreState.tombstone
    · rw [refreshStore_tombstone env now2 st S s hg h1]
    · by_cases h2 : s.address = ""
      · rw [refreshStore_empty_address env now2 st S s hg h1 h2]
      · cases hp : env.to_socket_addr s.address with
        | error e => rw [refreshStore_parse_error env now2 st S s e hg h1 h2 hp]
        | ok sock =>
          rw [refreshStore_ok env now2 st S s sock hg h1 h2 hp]
          exact cacheGet_insert_ne st.store_addrs T S _ h

theorem refreshStore_entry (env : Env) (now2 : Nat) (st : RunnerState) (S k : Nat)
    (a : StoreAddr)
    (h : cacheGet (refreshStore env now2 st S).2.store_addrs k = some a) :
    cacheGet st.store_addrs k = some a ∨ (GoodEntry env k a ∧ a.last_update = now2) := by
  cases hg : env.get_store S with
  | error e =>
    rw [refreshStore_transport_error env now2 st S e hg] at h
    exact Or.inl h
  | ok s =>
    by_cases h1 : s.state = StoreState.tombstone
    · rw [refreshStore_tombstone env now2 st S s hg h1] at h
      exact Or.inl h
    · by_cases h2 : s.address = ""
      · rw [refreshStore_empty_address env now2 st S s hg h1 h2] at h
        exact Or.inl h
      · cases hp : env.to_socket_addr s.address with
        | error e =>
          rw [refreshStore_parse_error env now2 st S s e hg h1 h2 hp] at h
          exact Or.inl h
        | ok sock =>
          rw [refreshStore_ok env now2 st S s sock hg h1 h2 hp] at h
          by_cases hk : k = S
          · subst hk
            rw [cacheGet_insert_self] at h
            have ha : a = { sock := sock, last_update := now2 } :=
              (Option.some.injEq _ _).mp h |>.symm
            subst ha
            exact Or.inr ⟨⟨s, hg, h1, h2, hp⟩, rfl⟩
          · rw [cacheGet_insert_ne st.store_addrs k S _ hk] at h
            exact Or.inl h

theorem resolve_frame (env : Env) (now now2 : Nat) (st : RunnerState) (S T : Nat)
    (h : T ≠ S) :
    cacheGet (resolve env now now2 st S).2.store_addrs T =
      cacheGet st.store_addrs T := by
  unfold resolve
  cases hc : cacheGet st.store_addrs S with
  | none => exact refreshStore_frame env now2 st S T h
  | some s =>
    dsimp only
    by_cases hf : durationAsSecs (now - s.last_update) < STORE_ADDRESS_REFRESH_SECONDS
    · simp [hf]
    · simp only [hf, if_false]
      exact refreshStore_frame env now2 st S T h

theorem resolve_entry (env : Env) (now now2 : Nat) (st : RunnerState) (S k : Nat)
    (a : StoreAddr)
    (h : cacheGet (resolve env now now2 st S).2.store_addrs k = some a) :
    cacheGet st.store_addrs k = some a ∨ (GoodEntry env k a ∧ a.last_update = now2) := by
  unfold resolve at h
  cases hc : cacheGet st.store_addrs S with
  | none =>
    rw [hc] at h
    exact refreshStore_entry env now2 st S k a h
  | some s =>
    rw [hc] at h
    dsimp only at h
    by_cases hf : durationAsSecs (now - s.last_update) < STORE_ADDRESS_REFRESH_SECONDS
    · simp only [hf, if_true] at h
      exact Or.inl h
    · simp only [hf, if_false] at h
      exact refreshStore_entry env now2 st S k a h

theorem runCalls_entry (calls : List Call) (st : RunnerState) (k : Nat) (a : StoreAddr)
    (h : cacheGet (runCalls calls st).store_addrs k = some a) :
    cacheGet st.store_addrs k = some a ∨
      ∃ c ∈ calls, GoodEntry c.env k a ∧ a.last_update = c.now2 := by
  induction calls generalizing st with
  | nil => exact Or.inl h
  | cons c rest ih =>
    rcases ih (resolve c.env c.now c.now2 st c.store_id).2 h with h1 | h1
    · rcases resolve_entry c.env c.now c.now2 st c.store_id k a h1 with h2 | h2
      · exact Or.inl h2
      · exact Or.inr ⟨c, List.mem_cons_self c rest, h2⟩
    · rcases h1 with ⟨c1, hc1, hg⟩
      exact Or.inr ⟨c1, List.mem_cons_of_mem c hc1, hg⟩

/-! ### Claim theorems -/

/-- C1: if the cache holds an entry for `S` whose age at the time of the call
is under the 60-second freshness window, `resolve` returns that entry's
endpoint as success and leaves the whole runner state — cache and `pd_calls`
ghost counter, hence PD-client invocations — unchanged. -/
theorem claim_C1_fresh_hit (env : Env) (now now2 : Nat) (st : RunnerState) (S : Nat)
    (s : StoreAddr) (hc : cacheGet st.store_addrs S = some s)
    (hf : now - s.last_update < STORE_ADDRESS_REFRESH_SECONDS * nanosPerSec) :
    resolve env now now2 st S = (.ok s.sock, st) :=
  resolve_fresh env now now2 st S s hc ((durationAsSecs_lt_iff _).mpr hf)

theorem claim_C1_witness :
    cacheGet demoStFresh.store_addrs 1 = some demoEntry ∧
    5 - demoEntry.last_update < STORE_ADDRESS_REFRESH_SECONDS * nanosPerSec ∧
    resolve demoEnv 5 7 demoStFresh 1 = (.ok demoEntry.sock, demoStFresh) :=
  ⟨rfl, by decide, claim_C1_fresh_hit demoEnv 5 7 demoStFresh 1 demoEntry rfl (by decide)⟩

/-- C2: with no cache entry for `S` or a stale one, `resolve` invokes the PD
client exactly once (`pd_calls` rises by exactly 1), and when the lookup fully
succeeds — metadata fetched, not tombstoned, non-empty address, address parses
to `sock` — it returns `sock` as success and overwrites the entry for `S` with
`sock` and the current instant `now2`, which is ≥ any previously stored
timestamp (the clock being monotone, `now ≤ now2`). -/
theorem claim_C2_refresh (env : Env) (now now2 : Nat) (st : RunnerState) (S : Nat)
    (hstale : ∀ s, cacheGet st.store_addrs S = some s →
      STORE_ADDRESS_REFRESH_SECONDS ≤ durationAsSecs (now - s.last_update))
    (hmono : now ≤ now2) :
    (resolve env now now2 st S).2.pd_calls = st.pd_calls + 1 ∧
    ∀ meta sock, env.get_store S = .ok meta → meta.state ≠ StoreState.tombstone →
      meta.address ≠ "" → env.to_socket_addr meta.address = .ok sock →
      (resolve env now now2 st S).1 = .ok sock ∧
      cacheGet (resolve env now now2 st S).2.store_addrs S =
        some { sock := sock, last_update := now2 } ∧
      ∀ s0, cacheGet st.store_addrs S = some s0 → s0.last_update ≤ now2 := by
  rw [resolve_stale env now now2 st S hstale]
  refine ⟨refreshStore_pd_calls env now2 st S, ?_⟩
  intro meta sock hm h1 h2 h3
  rw [refreshStore_ok env now2 st S meta sock hm h1 h2 h3]
  refine ⟨rfl, by simpa using cacheGet_insert_self st.store_addrs S _, ?_⟩
  intro s0 hs0
  have h60 : STORE_ADDRESS_REFRESH_SECONDS * nanosPerSec ≤ now - s0.last_update :=
    (Nat.le_div_iff_mul_le (by norm_num [nanosPerSec])).mp (hstale s0 hs0)
  have hpos : 0 < STORE_ADDRESS_REFRESH_SECONDS * nanosPerSec := by
    norm_num [STORE_ADDRESS_REFRESH_SECONDS, nanosPerSec]
  omega

theorem claim_C2_witness :
    (resolve demoEnv (60 * nanosPerSec) (60 * nanosPerSec) demoStFresh 1).2.pd_calls =
      demoStFresh.pd_calls + 1 ∧
    (resolve demoEnv (60 * nanosPerSec) (60 * nanosPerSec) demoStFresh 1).1 =
      .ok demoSock ∧
    cacheGet (resolve demoEnv (60 * nanosPerSec) (60 * nanosPerSec) demoStFresh 1).2.store_addrs 1 =
      some { sock := demoSock, last_update := 60 * nanosPerSec } := by
  have hstale : ∀ s, cacheGet demoStFresh.store_addrs 1 = some s →
      STORE_ADDRESS_REFRESH_SECONDS ≤
        durationAsSecs (60 * nanosPerSec - s.last_update) := by
    intro s hs
    have h3 : (some demoEntry : Option StoreAddr) = some s := hs
    have h4 : demoEntry = s := (Option.some.injEq _ _).mp h3
    rw [← h4]
    decide
  have h := claim_C2_refresh demoEnv (60 * nanosPerSec) (60 * nanosPerSec)
    demoStFresh 1 hstale (le_refl _)
  have h2 := h.2 demoStore demoSock rfl (by decide) (by decide) rfl
  exact ⟨h.1, h2.1, h2.2.1⟩

/-- C3: on the refresh path (no entry or a stale one), every failure —
PD transport error, tombstoned state, empty address, or address parse
failure — makes `resolve` return an error and leaves the cache exactly as it
was. -/
theorem claim_C3_failure_no_cache (env : Env) (now now2 : Nat) (st : RunnerState)
    (S : Nat)
    (hstale : ∀ s, cacheGet st.store_addrs S = some s →
      STORE_ADDRESS_REFRESH_SECONDS ≤ durationAsSecs (now - s.last_update))
    (hfail : (∃ e, env.get_store S = .error e) ∨
      ∃ meta, env.get_store S = .ok meta ∧
        (meta.state = StoreState.tombstone ∨ meta.address = "" ∨
          ∃ e, env.to_socket_addr meta.address = .error e)) :
    (∃ e, (resolve env now now2 st S).1 = .error e) ∧
    (resolve env now now2 st S).2.store_addrs = st.store_addrs := by
  rw [resolve_stale env now now2 st S hstale]
  cases hg : env.get_store S with
  | error e =>
    rw [refreshStore_transport_error env now2 st S e hg]
    exact ⟨⟨e, rfl⟩, rfl⟩
  | ok s =>
    by_cases h1 : s.state = StoreState.tombstone
    · rw [refreshStore_tombstone env now2 st S s hg h1]
      exact ⟨⟨_, rfl⟩, rfl⟩
    · by_cases h2 : s.address = ""
      · rw [refreshStore_empty_address env now2 st S s hg h1 h2]
        exact ⟨⟨_, rfl⟩, rfl⟩
      · cases hp : env.to_socket_addr s.address with
        | error e =>
          rw [refreshStore_parse_error env now2 st S s e hg h1 h2 hp]
          exact ⟨⟨e, rfl⟩, rfl⟩
        | ok sock =>
          exfalso
          rcases hfail with ⟨e, he⟩ | ⟨meta, hm, hcase⟩
          · rw [hg] at he
            exact Except.noConfusion he
          · rw [hg] at hm
            have hms : meta = s := by
              injection hm with hh
              exact hh.symm
            subst hms
            rcases hcase with hc | hc | ⟨e, hc⟩
            · exact h1 hc
            · exact h2 hc
            · rw [hp] at hc
              exact Except.noConfusion hc

theorem claim_C3_witness :
    (∃ e, (resolve demoEnv 0 0 initState 5).1 = .error e) ∧
    (resolve demoEnv 0 0 initState 5).2.store_addrs = initState.store_addrs := by
  have h := claim_C3_failure_no_cache demoEnv 0 0 initState 5
    (by intro s hs; exact Option.noConfusion hs)
    (Or.inl ⟨"transport error", rfl⟩)
  exact h

/-- C4: when the refresh path fetches metadata in lifecycle state
`tombstone`, `resolve` fails with the distinct "store has been removed"
error, the tombstone diagnostic counter rises by exactly 1, and the cache is
untouched. -/
theorem claim_C4_tombstone (env : Env) (now now2 : Nat) (st : RunnerState) (S : Nat)
    (meta : Store)
    (hstale : ∀ s, cacheGet st.store_addrs S = some s →
      STORE_ADDRESS_REFRESH_SECONDS ≤ durationAsSecs (now - s.last_update))
    (hm : env.get_store S = .ok meta) (ht : meta.state = StoreState.tombstone) :
    (resolve env now now2 st S).1 =
      .error ("store " ++ toString S ++ " has been removed") ∧
    (resolve env now now2 st S).2.tombstone_counter = st.tombstone_counter + 1 ∧
    (resolve env now now2 st S).2.store_addrs = st.store_addrs := by
  rw [resolve_stale env now now2 st S hstale,
    refreshStore_tombstone env now2 st S meta hm ht]
  exact ⟨rfl, rfl, rfl⟩

theorem claim_C4_witness :
    (resolve demoEnv 0 0 initState 2).1 =
      .error ("store " ++ toString 2 ++ " has been removed") ∧
    (resolve demoEnv 0 0 initState 2).2.tombstone_counter =
      initState.tombstone_counter + 1 ∧
    (resolve demoEnv 0 0 initState 2).2.store_addrs = initState.store_addrs :=
  claim_C4_tombstone demoEnv 0 0 initState 2
    { state := StoreState.tombstone, address := "a:1" }
    (by intro s hs; exact Option.noConfusion hs) rfl rfl

/-- C5: starting from the empty cache, after any sequence of `resolve` calls
every cache entry originates from a fully successful lookup: its call's
environment returned metadata that was not tombstoned, had a non-empty
address, and parsed to the entry's endpoint. -/
theorem claim_C5_cache_only_good (calls : List Call) (k : Nat) (a : StoreAddr)
    (h : cacheGet (runCalls calls initState).store_addrs k = some a) :
    ∃ c ∈ calls, GoodEntry c.env k a := by
  rcases runCalls_entry calls initState k a h with h1 | h1
  · exact Option.noConfusion h1
  · rcases h1 with ⟨c, hc, hg, _⟩
    exact ⟨c, hc, hg⟩

theorem claim_C5_witness :
    ∃ c ∈ [demoCall], GoodEntry c.env 1 { sock := demoSock, last_update := 7 } :=
  claim_C5_cache_only_good [demoCall] 1 { sock := demoSock, last_update := 7 } rfl

/-- C6: the freshness test is a strict less-than against the 60-second
window: an entry aged exactly 60 seconds triggers the refresh path (the PD
client is invoked), while an entry aged strictly under 60 seconds is served
from the cache with the state unchanged. -/
theorem claim_C6_strict_boundary (env : Env) (now now2 : Nat) (st : RunnerState)
    (S : Nat) (s : StoreAddr) (hc : cacheGet st.store_addrs S = some s) :
    (now - s.last_update = STORE_ADDRESS_REFRESH_SECONDS * nanosPerSec →
      (resolve env now now2 st S).2.pd_calls = st.pd_calls + 1) ∧
    (now - s.last_update < STORE_ADDRESS_REFRESH_SECONDS * nanosPerSec →
      resolve env now now2 st S = (.ok s.sock, st)) := by
  constructor
  · intro h
    have hstale : ∀ s1, cacheGet st.store_addrs S = some s1 →
        STORE_ADDRESS_REFRESH_SECONDS ≤ durationAsSecs (now - s1.last_update) := by
      intro s1 hs1
      rw [hc] at hs1
      have hss : s = s1 := (Option.some.injEq _ _).mp hs1
      rw [← hss, h]
      decide
    rw [resolve_stale env now now2 st S hstale]
    exact refreshStore_pd_calls env now2 st S
  · intro h
    exact resolve_fresh env now now2 st S s hc ((durationAsSecs_lt_iff _).mpr h)

theorem claim_C6_witness :
    (resolve demoEnv (STORE_ADDRESS_REFRESH_SECONDS * nanosPerSec) 0 demoStFresh 1).2.pd_calls =
      demoStFresh.pd_calls + 1 ∧
    resolve demoEnv (STORE_ADDRESS_REFRESH_SECONDS * nanosPerSec - 1) 0 demoStFresh 1 =
      (.ok demoEntry.sock, demoStFresh) := by
  have h1 := claim_C6_strict_boundary demoEnv (STORE_ADDRESS_REFRESH_SECONDS * nanosPerSec)
    0 demoStFresh 1 demoEntry rfl
  have h2 := claim_C6_strict_boundary demoEnv (STORE_ADDRESS_REFRESH_SECONDS * nanosPerSec - 1)
    0 demoStFresh 1 demoEntry rfl
  exact ⟨h1.1 rfl, h2.2 (by decide)⟩

/-- C7: idempotence within the freshness window: if a first `resolve` of `S`
succeeds with `sock` and a second one runs while the entry it installed or
confirmed is still fresh, the second call returns the same `sock`, changes
nothing in the runner state (in particular the stored timestamp), and the PD
client is invoked at most once across the two calls. -/
theorem claim_C7_idempotent (env : Env) (now1 now1' now2 now2' : Nat)
    (st : RunnerState) (S : Nat) (sock : SockAddr)
    (h1 : (resolve env now1 now1' st S).1 = .ok sock)
    (hfresh : ∀ s, cacheGet (resolve env now1 now1' st S).2.store_addrs S = some s →
      now2 - s.last_update < STORE_ADDRESS_REFRESH_SECONDS * nanosPerSec) :
    (resolve env now2 now2' (resolve env now1 now1' st S).2 S).1 = .ok sock ∧
    (resolve env now2 now2' (resolve env now1 now1' st S).2 S).2 =
      (resolve env now1 now1' st S).2 ∧
    (resolve env now1 now1' st S).2.pd_calls ≤ st.pd_calls + 1 := by
  obtain ⟨s, hs, hsock⟩ := resolve_ok_entry env now1 now1' st S sock h1
  have hf := (durationAsSecs_lt_iff _).mpr (hfresh s hs)
  have h2 := resolve_fresh env now2 now2' (resolve env now1 now1' st S).2 S s hs hf
  refine ⟨?_, ?_, resolve_pd_calls_le env now1 now1' st S⟩
  · rw [h2, hsock]
  · rw [h2]

theorem claim_C7_witness :
    (resolve demoEnv 8 9 (resolve demoEnv 0 7 initState 1).2 1).1 = .ok demoSock ∧
    (resolve demoEnv 8 9 (resolve demoEnv 0 7 initState 1).2 1).2 =
      (resolve demoEnv 0 7 initState 1).2 ∧
    (resolve demoEnv 0 7 initState 1).2.pd_calls ≤ initState.pd_calls + 1 := by
  have hfresh : ∀ s, cacheGet (resolve demoEnv 0 7 initState 1).2.store_addrs 1 = some s →
      8 - s.last_update < STORE_ADDRESS_REFRESH_SECONDS * nanosPerSec := by
    intro s hs
    have h3 : (some { sock := demoSock, last_update := 7 } : Option StoreAddr) = some s := hs
    have h4 : ({ sock := demoSock, last_update := 7 } : StoreAddr) = s :=
      (Option.some.injEq _ _).mp h3
    rw [← h4]
    decide
  exact claim_C7_idempotent demoEnv 0 7 8 9 initState 1 demoSock rfl hfresh

/-- C8: `Runnable::run` invokes the task's callback exactly once — the
invocation log is the singleton list — carrying exactly the result `resolve`
produced for the task's store id, and leaves the state `resolve` produced. -/
theorem claim_C8_run_callback {β : Type} (env : Env) (now now2 : Nat)
    (st : RunnerState) (task : Task β) :
    (run env now now2 st task).2 =
      [task.cb (resolve env now now2 st task.store_id).1] ∧
    (run env now now2 st task).1 = (resolve env now now2 st task.store_id).2 :=
  ⟨rfl, rfl⟩

/-- C9: the front-end `resolve` either fails to enqueue — returning the
submission error synchronously, invoking no callback, leaving the queue as it
was — or enqueues the task and returns `Ok(())`; it never invokes the
callback itself. -/
theorem claim_C9_frontend_submit {β : Type} (w : Worker β) (S : Nat)
    (cb : Except String SockAddr → β) :
    (PdStoreAddrResolver.resolve w S cb).2.2 = [] ∧
    PdStoreAddrResolver.resolve w S cb =
      (if w.running then
        (.ok (), { w with pending := w.pending ++ [{ store_id := S, cb := cb }] }, [])
      else (.error "worker stopped", w, [])) := by
  constructor
  · unfold PdStoreAddrResolver.resolve schedule
    by_cases hw : w.running = true <;> simp [hw]
  · unfold PdStoreAddrResolver.resolve schedule
    by_cases hw : w.running = true <;> simp [hw]

/-- C10: frame property: `resolve` for store id `S` leaves the cache entry of
every other store id `T` exactly as it was — same presence, endpoint and
timestamp — on every path. -/
theorem claim_C10_frame (env : Env) (now now2 : Nat) (st : RunnerState)
    (S T : Nat) (h : T ≠ S) :
    cacheGet (resolve env now now2 st S).2.store_addrs T =
      cacheGet st.store_addrs T :=
  resolve_frame env now now2 st S T h

theorem claim_C10_witness :
    cacheGet (resolve demoEnv 0 7 demoStFresh 2).2.store_addrs 1 =
      cacheGet demoStFresh.store_addrs 1 :=
  claim_C10_frame demoEnv 0 7 demoStFresh 2 1 (by decide)

end Resolve
